import Mathlib

/-!
Shallow embedding of `src/streamlit_food_nutrition_app.py` (the compute
pipeline triggered by the app's button, lines 94-141, together with the
nutrition-mapping loader, lines 50-58 and 72-82).

Tables are embedded as Lean lists of rows; pandas cells that may hold a
number, a string, or be missing (NaN) become small inductive cell types.
Floating-point values are modelled as exact rationals, which is adequate
here because the pipeline only multiplies, divides by 100 and sums.
-/

set_option autoImplicit false

namespace FoodApp

/-- A cell of the food-code column: pandas stores either a number or a
string there; `astype(str)` turns an integer `101` into `"101"`. -/
inductive CodeCell where
  | intC (n : Int)
  | strC (s : String)
  deriving DecidableEq, Repr

/-- A cell of a grams or nutrient column: numeric, textual, or missing
(NaN). -/
inductive Cell where
  | numC (q : ℚ)
  | strC (s : String)
  | naC
  deriving DecidableEq, Repr

/-- Python `str.strip()`: remove leading and trailing whitespace. -/
def pyStrip (s : String) : String :=
  String.mk ((((s.data.dropWhile Char.isWhitespace).reverse.dropWhile
      Char.isWhitespace).reverse))

/-- `.str.replace(',','')` (line 95): delete every comma. -/
def removeCommas (s : String) : String :=
  String.mk (s.data.filter (fun c => c ≠ ','))

/-- Value of a digit list read in base 10. -/
def digitsVal (l : List Char) : Nat :=
  l.foldl (fun a c => a * 10 + (c.toNat - 48)) 0

/-- Parse an unsigned decimal numeral (`"12"`, `"12.5"`, `"12."`, `".5"`),
the integer/decimal forms accepted by `pd.to_numeric`. -/
def parseUnsigned (l : List Char) : Option ℚ :=
  let intPart := l.takeWhile Char.isDigit
  let rest := l.dropWhile Char.isDigit
  match rest with
  | [] => if intPart.isEmpty then none else some (digitsVal intPart : ℚ)
  | '.' :: frac =>
      if frac.all Char.isDigit && (!intPart.isEmpty || !frac.isEmpty) then
        some ((digitsVal intPart : ℚ) + (digitsVal frac : ℚ) / (10 ^ frac.length))
      else none
  | _ => none

/-- `pd.to_numeric(·, errors='coerce')` on one textual cell: strip
whitespace, optional sign, decimal numeral; `none` models NaN on failure. -/
def parseNum (s : String) : Option ℚ :=
  match (pyStrip s).data with
  | '-' :: rest => (parseUnsigned rest).map (fun q => -q)
  | '+' :: rest => parseUnsigned rest
  | l => parseUnsigned l

/-- Lines 102-103: `astype(str).str.strip()` applied to a food-code cell of
either table. -/
def normCode : CodeCell → String
  | .intC n => pyStrip (toString n)
  | .strC s => pyStrip s

/-- Line 95: `pd.to_numeric(cell.astype(str).str.replace(',',''),
errors='coerce')` on one grams cell.  A numeric cell round-trips through
its string form unchanged; a NaN cell stringifies to `"nan"` and coerces
back to NaN. -/
def coerceGrams : Cell → Option ℚ
  | .numC q => some q
  | .strC s => parseNum (removeCommas s)
  | .naC => none

/-- Lines 54-55: `pd.to_numeric(col, errors='coerce').fillna(0)` on one
nutrient cell of the mapping file. -/
def coerceNutrient : Cell → ℚ
  | .numC q => q
  | .strC s => (parseNum s).getD 0
  | .naC => 0

/-- One row of the uploaded consumption CSV (household, person, food code,
grams — the four selected columns). -/
structure ConsRow where
  household : String
  person : String
  code : CodeCell
  grams : Cell
  deriving DecidableEq, Repr

/-- One row of the nutrition mapping file: code, food name, translation,
then the raw nutrient cells (`mapping_df.columns[3:]`). -/
structure MapRow where
  code : CodeCell
  food_name : Option String
  translation : Option String
  nutrients : List Cell
  deriving DecidableEq, Repr

/-- A mapping row after the loader's numeric coercion (lines 54-55). -/
structure LoadedMapRow where
  code : CodeCell
  food_name : Option String
  translation : Option String
  nutrients : List ℚ
  deriving DecidableEq, Repr

/-- Lines 54-55 applied to a whole mapping row. -/
def loadMapRow (m : MapRow) : LoadedMapRow :=
  ⟨m.code, m.food_name, m.translation, m.nutrients.map coerceNutrient⟩

/-- Lines 95 and 99: the grams value actually used downstream — the
coerced value, with parse failures filled with 0. -/
def gramsOf (c : ConsRow) : ℚ :=
  (coerceGrams c.grams).getD 0

/-- Lines 96-97: `len(missing_grams)`, the number of rows whose grams cell
failed numeric coercion, reported in a single warning. -/
def missing_grams_count (cons : List ConsRow) : Nat :=
  (cons.filter (fun c => (coerceGrams c.grams).isNone)).length

/-- One row of `merged` (line 105).  For an unmatched consumption row the
right-hand columns are NaN: `food_name`/`translation` are `none` and every
nutrient cell is `none`. -/
structure MergedRow where
  household : String
  person : String
  codeNorm : String
  grams : ℚ
  food_name : Option String
  translation : Option String
  nutrients : List (Option ℚ)
  deriving DecidableEq, Repr

/-- The mapping rows whose normalized code equals the consumption row's
normalized code (the join predicate of lines 105-106). -/
def matchesOf (mp : List LoadedMapRow) (c : ConsRow) : List LoadedMapRow :=
  mp.filter (fun m => normCode m.code == normCode c.code)

/-- The merged row produced for a consumption row with no mapping match:
all right-hand columns are NaN (`n` nutrient columns). -/
def unmatchedRow (n : Nat) (c : ConsRow) : MergedRow :=
  ⟨c.household, c.person, normCode c.code, gramsOf c, none, none,
    List.replicate n none⟩

/-- The merged row produced for a consumption row joined to one mapping
row. -/
def matchedRow (c : ConsRow) (m : LoadedMapRow) : MergedRow :=
  ⟨c.household, c.person, normCode c.code, gramsOf c,
    m.food_name, m.translation, m.nutrients.map some⟩

/-- Lines 105-106, for a single left row: pandas `how='left'` emits one
output row per matching right row, keeping their order, and a single
all-NaN-extended row when nothing matches.  `n` is the number of nutrient
columns. -/
def mergeOne (n : Nat) (mp : List LoadedMapRow) (c : ConsRow) : List MergedRow :=
  match matchesOf mp c with
  | [] => [unmatchedRow n c]
  | ms => ms.map (matchedRow c)

/-- Lines 105-106: the full left merge, preserving consumption row order. -/
def leftMerge (n : Nat) (cons : List ConsRow) (mp : List LoadedMapRow) :
    List MergedRow :=
  cons.flatMap (mergeOne n mp)

/-- Whether a consumption row has at least one mapping match. -/
def isMatched (mp : List LoadedMapRow) (c : ConsRow) : Bool :=
  !(matchesOf mp c).isEmpty

/-- Lines 108 and 138: `merged[chosen_nutrition_cols].isna().all(axis=1)`
on one merged row. -/
def allNaN (r : MergedRow) : Bool :=
  r.nutrients.all (fun o => o.isNone)

/-- Line 108: `n_missing`, the number of merged rows with every nutrient
cell NaN. -/
def n_missing (merged : List MergedRow) : Nat :=
  (merged.filter allNaN).length

/-- Lines 113-114: `merged[col + '_for_grams'] = (grams / 100.0) * merged[col]`
for every nutrient column; NaN propagates through the product. -/
def contributions (r : MergedRow) : List (Option ℚ) :=
  r.nutrients.map (Option.map (fun v => r.grams / 100 * v))

/-- Line 117's group total: `merged.groupby([hh, id, food_name,
translation])[grams].sum()` at one group key.  pandas drops rows whose
group keys contain NaN, so only rows with both name cells present
qualify. -/
def food_item_total (merged : List MergedRow) (hh p fn tr : String) : ℚ :=
  ((merged.filter (fun r => r.household == hh && r.person == p &&
      r.food_name == some fn && r.translation == some tr)).map
    (fun r => r.grams)).sum

/-- Lines 120-121's group total: `merged.groupby([hh, id])[agg_cols].sum()`
at one group key for nutrient column `j`; pandas `sum` skips NaN cells, so
only the present contributions enter the sum. -/
def nutrition_total (merged : List MergedRow) (hh p : String) (j : Nat) : ℚ :=
  (((merged.filter (fun r => r.household == hh && r.person == p)).filterMap
      (fun r => (contributions r).getD j none))).sum

/-- `drop_duplicates()` keeping first occurrences, as pandas does. -/
def firstDedup : List String → List String
  | [] => []
  | a :: l => a :: firstDedup (l.filter (fun x => x ≠ a))
  termination_by l => l.length
  decreasing_by
    simp only [List.length_cons]
    exact Nat.lt_succ_of_le (l.length_filter_le _)

/-- Line 138: `merged[all-NaN][[code_col]].drop_duplicates()` — the
deduplicated unmatched-codes report. -/
def unmatchedReport (merged : List MergedRow) : List String :=
  firstDedup ((merged.filter allNaN).map (fun r => r.codeNorm))

/-- The nutrition mapping file as read (line 50): column names plus rows
of raw cells, before any coercion. -/
structure RawMapTable where
  colNames : List String
  rows : List (List Cell)
  deriving Repr

/-- Line 78: `chosen_nutrition_cols = list(mapping_df.columns[3:])`. -/
def chosen_nutrition_cols (t : RawMapTable) : List String :=
  t.colNames.drop 3

/-- Whether column `j` of the raw mapping table is entirely empty (every
row's cell is NaN; absent cells of short rows count as NaN). -/
def colEntirelyEmpty (t : RawMapTable) (j : Nat) : Bool :=
  t.rows.all (fun r => r.getD j Cell.naC == Cell.naC)

/-- Lines 54-55 applied to one raw table row: the nutrient cells (columns
3 and later) after numeric coercion. -/
def loadRowNutrients (r : List Cell) : List ℚ :=
  (r.drop 3).map coerceNutrient

/-! ### Concrete tables used by the example scenarios and witnesses -/

/-- The spec's example nutrition table: `{101: {energy:100}, 102: {energy:200}}`. -/
def exMap : List MapRow :=
  [⟨.intC 101, some "rice", some "Rice", [.numC 100]⟩,
   ⟨.intC 102, some "dal", some "Dal", [.numC 200]⟩]

/-- The spec's example consumption rows (all in household 1):
`(person=1, food=101, g=150), (person=1, food=102, g=80),
(person=2, food=101, g=200)`. -/
def exCons : List ConsRow :=
  [⟨"1", "1", .intC 101, .numC 150⟩,
   ⟨"1", "1", .intC 102, .numC 80⟩,
   ⟨"1", "2", .intC 101, .numC 200⟩]

/-- The merged table of the example scenario (one nutrient column). -/
def exMerged : List MergedRow := leftMerge 1 exCons (exMap.map loadMapRow)

/-- A consumption row with food code `999`, absent from `exMap`. -/
def row999 : ConsRow := ⟨"1", "1", .intC 999, .numC 50⟩

/-- The example consumption rows together with two records carrying the
unmatched code `999`. -/
def exConsU : List ConsRow :=
  exCons ++ [row999, ⟨"2", "3", .intC 999, .numC 60⟩]

/-- A nutrition table with a duplicated food code `101`. -/
def dupMap : List MapRow :=
  [⟨.intC 101, some "a", some "A", [.numC 10]⟩,
   ⟨.intC 101, some "b", some "B", [.numC 20]⟩]

/-- A single consumption record with food code `101`. -/
def oneCons : List ConsRow := [⟨"1", "1", .intC 101, .numC 50⟩]

/-- A consumption row whose grams cell holds the text `-5`. -/
def negRow : ConsRow := ⟨"1", "1", .intC 101, .strC "-5"⟩

/-- A raw mapping table whose fourth column is entirely empty. -/
def rawEmptyCol : RawMapTable :=
  ⟨["code", "name", "trans", "Empty"],
   [[.strC "101", .strC "rice", .strC "r", .naC],
    [.strC "102", .strC "dal", .strC "d", .naC]]⟩

/-! ### Basic lemmas about the merge and the group totals -/

theorem leftMerge_nil (n : Nat) (mp : List LoadedMapRow) :
    leftMerge n [] mp = [] := rfl

theorem leftMerge_cons (n : Nat) (c : ConsRow) (l : List ConsRow)
    (mp : List LoadedMapRow) :
    leftMerge n (c :: l) mp = mergeOne n mp c ++ leftMerge n l mp := rfl

theorem mergeOne_of_unmatched {mp : List LoadedMapRow} {c : ConsRow}
    (n : Nat) (h : matchesOf mp c = []) :
    mergeOne n mp c = [unmatchedRow n c] := by
  simp [mergeOne, h]

theorem mergeOne_of_matched {mp : List LoadedMapRow} {c : ConsRow}
    (n : Nat) (h : matchesOf mp c ≠ []) :
    mergeOne n mp c = (matchesOf mp c).map (matchedRow c) := by
  unfold mergeOne
  cases hm : matchesOf mp c with
  | nil => exact absurd hm h
  | cons a l => rfl

theorem nutrition_total_append (a b : List MergedRow) (hh p : String) (j : Nat) :
    nutrition_total (a ++ b) hh p j =
      nutrition_total a hh p j + nutrition_total b hh p j := by
  simp [nutrition_total, List.filter_append, List.filterMap_append]

theorem food_item_total_append (a b : List MergedRow) (hh p fn tr : String) :
    food_item_total (a ++ b) hh p fn tr =
      food_item_total a hh p fn tr + food_item_total b hh p fn tr := by
  simp [food_item_total, List.filter_append]

theorem getD_replicate_none (n j : Nat) :
    (List.replicate n (none : Option ℚ)).getD j none = none := by
  induction n generalizing j with
  | zero => simp [List.getD]
  | succ k ih =>
      cases j with
      | zero => simp [List.replicate]
      | succ i => simp only [List.replicate, List.getD_cons_succ]; exact ih i

theorem contributions_unmatchedRow (n : Nat) (c : ConsRow) :
    contributions (unmatchedRow n c) = List.replicate n none := by
  simp [contributions, unmatchedRow]

/-- An all-NaN merged row adds nothing to any nutrient group total. -/
theorem nutrition_total_unmatchedRow (n : Nat) (c : ConsRow)
    (hh p : String) (j : Nat) :
    nutrition_total [unmatchedRow n c] hh p j = 0 := by
  by_cases hg : (unmatchedRow n c).household == hh && (unmatchedRow n c).person == p <;>
    simp [nutrition_total, hg, contributions_unmatchedRow, getD_replicate_none]

/-- An unmatched merged row has NaN group keys, so it lands in no group of
the food-item summary. -/
theorem food_item_total_unmatchedRow (n : Nat) (c : ConsRow)
    (hh p fn tr : String) :
    food_item_total [unmatchedRow n c] hh p fn tr = 0 := by
  simp [food_item_total, unmatchedRow]

theorem mem_firstDedup (a : String) :
    ∀ l : List String, a ∈ firstDedup l ↔ a ∈ l
  | [] => by simp [firstDedup]
  | b :: l => by
      rw [firstDedup]
      by_cases hab : a = b
      · subst hab; simp
      · simp only [List.mem_cons, hab, false_or]
        rw [mem_firstDedup a (l.filter (fun x => x ≠ b))]
        simp [List.mem_filter, hab]
  termination_by l => l.length
  decreasing_by
    simp only [List.length_cons]
    exact Nat.lt_succ_of_le (l.length_filter_le _)

theorem nodup_firstDedup : ∀ l : List String, (firstDedup l).Nodup
  | [] => by simp [firstDedup]
  | b :: l => by
      rw [firstDedup]
      refine List.nodup_cons.2 ⟨?_, nodup_firstDedup (l.filter (fun x => x ≠ b))⟩
      rw [mem_firstDedup]
      simp [List.mem_filter]
  termination_by l => l.length
  decreasing_by
    simp only [List.length_cons]
    exact Nat.lt_succ_of_le (l.length_filter_le _)

/-- Every member of the deduplicated report occurs in it exactly once. -/
theorem count_firstDedup_of_mem {a : String} {l : List String} (h : a ∈ l) :
    (firstDedup l).count a = 1 :=
  List.count_eq_one_of_mem (nodup_firstDedup l) ((mem_firstDedup a l).2 h)

theorem normCode_101 : normCode (CodeCell.intC 101) = "101" := rfl

theorem normCode_102 : normCode (CodeCell.intC 102) = "102" := rfl

theorem normCode_999 : normCode (CodeCell.intC 999) = "999" := rfl

/-- Every merged row keeps its consumption row's identity columns, grams
value and normalized code. -/
theorem mem_mergeOne_fields {n : Nat} {mp : List LoadedMapRow} {c : ConsRow}
    {r : MergedRow} (h : r ∈ mergeOne n mp c) :
    r.household = c.household ∧ r.person = c.person ∧
      r.grams = gramsOf c ∧ r.codeNorm = normCode c.code := by
  unfold mergeOne at h
  cases hm : matchesOf mp c with
  | nil =>
      rw [hm] at h
      simp only [List.mem_singleton] at h
      subst h
      exact ⟨rfl, rfl, rfl, rfl⟩
  | cons a l =>
      rw [hm] at h
      simp only [List.mem_map] at h
      obtain ⟨m, _, hr⟩ := h
      subst hr
      exact ⟨rfl, rfl, rfl, rfl⟩

/-- The left merge emits at least one row per consumption row. -/
theorem one_le_length_mergeOne (n : Nat) (mp : List LoadedMapRow) (c : ConsRow) :
    1 ≤ (mergeOne n mp c).length := by
  unfold mergeOne
  cases hm : matchesOf mp c with
  | nil => simp
  | cons a l => simp

theorem allNaN_unmatchedRow (n : Nat) (c : ConsRow) :
    allNaN (unmatchedRow n c) = true := by
  simp [allNaN, unmatchedRow]

theorem matchesOf_eq_nil_of_not_matched {mp : List LoadedMapRow} {c : ConsRow}
    (h : isMatched mp c = false) : matchesOf mp c = [] := by
  rw [isMatched] at h
  exact List.isEmpty_iff.1 (by simpa using h)

theorem nutrition_total_mergeOne_unmatched {mp : List LoadedMapRow} {c : ConsRow}
    (n : Nat) (h : matchesOf mp c = []) (hh p : String) (j : Nat) :
    nutrition_total (mergeOne n mp c) hh p j = 0 := by
  rw [mergeOne_of_unmatched n h, nutrition_total_unmatchedRow]

/-- A consumption row belonging to a different group adds nothing to a
group's nutrient total. -/
theorem nutrition_total_mergeOne_other_group {c : ConsRow} {hh p : String}
    (n : Nat) (mp : List LoadedMapRow) (j : Nat)
    (h : ¬(c.household = hh ∧ c.person = p)) :
    nutrition_total (mergeOne n mp c) hh p j = 0 := by
  rw [nutrition_total]
  have hnil : (mergeOne n mp c).filter
      (fun r => r.household == hh && r.person == p) = [] := by
    rw [List.filter_eq_nil_iff]
    intro r hr
    obtain ⟨h1, h2, -, -⟩ := mem_mergeOne_fields hr
    rw [h1, h2]
    simp only [Bool.and_eq_true, beq_iff_eq, not_and]
    intro hhh hpp
    exact h ⟨hhh, hpp⟩
  rw [hnil]
  rfl

/-! ### The claims -/

/-- C4: on the spec's example input — consumption rows
(person 1, food 101, 150 g), (person 1, food 102, 80 g),
(person 2, food 101, 200 g), nutrition table 101 ↦ energy 100 and
102 ↦ energy 200 per 100 g — the per-person aggregation yields energy 310
for person 1 and energy 200 for person 2. -/
theorem c4_example_per_person_totals :
    nutrition_total exMerged "1" "1" 0 = 310 ∧
      nutrition_total exMerged "1" "2" 0 = 200 := by
  constructor <;>
    (simp [exMerged, exCons, exMap, leftMerge, mergeOne, matchesOf, matchedRow,
      unmatchedRow, loadMapRow, normCode_101, normCode_102, gramsOf, coerceGrams,
      nutrition_total, contributions, coerceNutrient]
     try norm_num)

/-- C5: both food-code columns are normalized to trimmed string form
before the join comparison: any mapping row whose normalized code equals
the record's normalized code produces a match, and the integer code 101,
the string "101" and the padded string "101 " all normalize to the same
key "101". -/
theorem c5_code_normalization :
    (∀ (mp : List LoadedMapRow) (cRow : ConsRow), ∀ m ∈ mp,
        normCode m.code = normCode cRow.code → isMatched mp cRow = true) ∧
      normCode (.intC 101) = "101" ∧
      normCode (.strC "101") = "101" ∧
      normCode (.strC "101 ") = "101" := by
  refine ⟨?_, rfl, rfl, rfl⟩
  intro mp cRow m hm heq
  have hmem : m ∈ matchesOf mp cRow := by
    simp [matchesOf, List.mem_filter, hm, heq]
  simp [isMatched, List.isEmpty_iff, List.ne_nil_of_mem hmem]

/-- Witness for C5: a consumption record with integer code 101 matches a
nutrition entry whose code cell is the padded string "101 ". -/
theorem c5_code_normalization_witness :
    isMatched [loadMapRow ⟨.strC "101 ", some "rice", some "Rice", [.numC 100]⟩]
      ⟨"1", "1", .intC 101, .numC 150⟩ = true :=
  c5_code_normalization.1 _ _ _ (List.mem_singleton.2 rfl) (by rfl)

/-- C6: a grams cell that does not parse as numeric after comma removal is
treated as 0 and counted into the single warning count, and no row is
dropped: thousands separators are removed before parsing, unparsable cells
yield grams 0, the warning count equals the number of unparsable cells,
and the merge still emits at least one row per consumption row. -/
theorem c6_grams_coercion :
    coerceGrams (.strC "1,500") = some 1500 ∧
      (∀ c : ConsRow, coerceGrams c.grams = none → gramsOf c = 0) ∧
      (∀ cons : List ConsRow, missing_grams_count cons =
        cons.countP (fun c => (coerceGrams c.grams).isNone)) ∧
      (∀ (n : Nat) (cons : List ConsRow) (mp : List LoadedMapRow),
        cons.length ≤ (leftMerge n cons mp).length) := by
  refine ⟨?_, ?_, ?_, ?_⟩
  · simp [coerceGrams, parseNum, removeCommas, pyStrip, parseUnsigned, digitsVal]
  · intro c h
    simp [gramsOf, h]
  · intro cons
    simp [missing_grams_count, List.countP_eq_length_filter]
  · intro n cons mp
    induction cons with
    | nil => simp [leftMerge_nil]
    | cons c l ih =>
        rw [leftMerge_cons, List.length_append, List.length_cons]
        have h1 := one_le_length_mergeOne n mp c
        omega

/-- Witness for C6: the row with grams cell "abc" fails to parse and is
treated as 0. -/
theorem c6_grams_coercion_witness :
    gramsOf ⟨"1", "1", .intC 101, .strC "abc"⟩ = 0 :=
  c6_grams_coercion.2.1 ⟨"1", "1", .intC 101, .strC "abc"⟩ (by
    simp [coerceGrams, parseNum, removeCommas, pyStrip, parseUnsigned])

/-- Counterexample to C7: the pipeline performs no negativity check — the
record with grams cell "-5" is parsed to −5 and is processed by the
join-and-scale stage with a negative quantity. -/
theorem c7_counterexample :
    gramsOf negRow = -5 ∧
      (leftMerge 1 [negRow] (exMap.map loadMapRow)).map (fun r => r.grams) = [-5] ∧
      ¬ (∀ r ∈ leftMerge 1 [negRow] (exMap.map loadMapRow), 0 ≤ r.grams) := by
  refine ⟨?_, ?_, ?_⟩
  · simp [negRow, gramsOf, coerceGrams, parseNum, removeCommas, pyStrip,
      parseUnsigned, digitsVal]
  · simp [negRow, exMap, leftMerge, mergeOne, matchesOf, matchedRow, loadMapRow,
      normCode_101, normCode_102, gramsOf, coerceGrams, parseNum, removeCommas,
      pyStrip, parseUnsigned, digitsVal]
  · intro h
    have h1 : ∀ g ∈ (leftMerge 1 [negRow] (exMap.map loadMapRow)).map
        (fun r => r.grams), 0 ≤ g := by
      intro g hg
      obtain ⟨r, hr, hgr⟩ := List.mem_map.1 hg
      exact hgr ▸ h r hr
    rw [show (leftMerge 1 [negRow] (exMap.map loadMapRow)).map (fun r => r.grams)
        = [-5] by
      simp [negRow, exMap, leftMerge, mergeOne, matchesOf, matchedRow, loadMapRow,
        normCode_101, normCode_102, gramsOf, coerceGrams, parseNum, removeCommas,
        pyStrip, parseUnsigned, digitsVal]] at h1
    have := h1 (-5) (List.mem_singleton.2 rfl)
    norm_num at this

/-- C7 as amended: non-numeric or missing grams are coerced to 0 with a
recorded count and no record is silently dropped, but negative numeric
quantities are not rejected — every record entering the join-and-scale
stage has nonnegative quantity only when every coerced input quantity is
nonnegative. -/
theorem c7_amended :
    (∀ c : ConsRow, coerceGrams c.grams = none → gramsOf c = 0) ∧
      (∀ (n : Nat) (cons : List ConsRow) (mp : List LoadedMapRow),
        cons.length ≤ (leftMerge n cons mp).length) ∧
      (∀ (n : Nat) (cons : List ConsRow) (mp : List LoadedMapRow),
        (∀ c ∈ cons, 0 ≤ gramsOf c) →
          ∀ r ∈ leftMerge n cons mp, 0 ≤ r.grams) := by
  refine ⟨?_, ?_, ?_⟩
  · intro c h
    simp [gramsOf, h]
  · intro n cons mp
    induction cons with
    | nil => simp [leftMerge_nil]
    | cons c l ih =>
        rw [leftMerge_cons, List.length_append, List.length_cons]
        have h1 := one_le_length_mergeOne n mp c
        omega
  · intro n cons mp hpos r hr
    obtain ⟨c, hc, hrc⟩ := List.mem_flatMap.1 hr
    rw [(mem_mergeOne_fields hrc).2.2.1]
    exact hpos c hc

/-- Witness for C7 (amended): with the example table, whose grams are all
nonnegative, every merged row has nonnegative grams. -/
theorem c7_amended_witness :
    ∀ r ∈ leftMerge 1 exCons (exMap.map loadMapRow), 0 ≤ r.grams :=
  c7_amended.2.2 1 exCons (exMap.map loadMapRow) (by
    intro c hc
    fin_cases hc <;>
      simp [gramsOf, coerceGrams])

/-- Counterexample to C8: the loader performs no empty-column drop — a
fourth column that is entirely empty is still selected as a nutrient
column. -/
theorem c8_counterexample :
    colEntirelyEmpty rawEmptyCol 3 = true ∧
      chosen_nutrition_cols rawEmptyCol = ["Empty"] := by
  constructor
  · rfl
  · rfl

/-- C8 as amended: the loader does not drop entirely-empty columns — the
nutrient column set is exactly every column after the first three, an
entirely-empty chosen column loads as 0 in every row, and every nutrient
cell is coerced to numeric with non-numeric and missing cells defaulting
to 0. -/
theorem c8_amended :
    (∀ t : RawMapTable, chosen_nutrition_cols t = t.colNames.drop 3) ∧
      (∀ q : ℚ, coerceNutrient (.numC q) = q) ∧
      coerceNutrient .naC = 0 ∧
      (∀ s : String, parseNum s = none → coerceNutrient (.strC s) = 0) ∧
      (∀ (t : RawMapTable) (j : Nat), 3 ≤ j → colEntirelyEmpty t j = true →
        ∀ r ∈ t.rows, (loadRowNutrients r).getD (j - 3) 0 = 0) := by
  refine ⟨fun _ => rfl, fun _ => rfl, rfl, ?_, ?_⟩
  · intro s h
    simp [coerceNutrient, h]
  · intro t j hj hcol r hr
    have hcell : r.getD j Cell.naC = Cell.naC := by
      have := (List.all_eq_true.1 hcol) r hr
      exact eq_of_beq this
    rw [loadRowNutrients, List.getD_eq_getElem?_getD, List.getElem?_map,
      List.getElem?_drop]
    have hj3 : 3 + (j - 3) = j := by omega
    rw [hj3]
    cases hq : r[j]? with
    | none => simp
    | some cell =>
        have : cell = Cell.naC := by
          rw [List.getD_eq_getElem?_getD, hq] at hcell
          simpa using hcell
        simp [this, coerceNutrient]

/-- Witness for C8 (amended): the garbled nutrient cell "n/a" loads as 0. -/
theorem c8_amended_witness : coerceNutrient (.strC "n/a") = 0 :=
  c8_amended.2.2.2.1 "n/a" (by
    simp [parseNum, pyStrip, parseUnsigned])

/-- C9: in the food-item summary (grouped by household, person, food name
and translation), unmatched consumption rows are omitted entirely: every
group total is unchanged when the unmatched consumption rows are removed
from the input, because an unmatched row's food-name and translation keys
are NaN after the left join and pandas drops NaN group keys. -/
theorem c9_unmatched_absent_from_food_item_summary :
    ∀ (n : Nat) (cons : List ConsRow) (mp : List LoadedMapRow)
      (hh p fn tr : String),
      food_item_total (leftMerge n cons mp) hh p fn tr =
        food_item_total (leftMerge n (cons.filter (isMatched mp)) mp) hh p fn tr := by
  intro n cons mp hh p fn tr
  induction cons with
  | nil => rfl
  | cons c l ih =>
      rw [leftMerge_cons, food_item_total_append, ih]
      cases hm : isMatched mp c with
      | false =>
          rw [List.filter_cons_of_neg (by simp [hm]),
            mergeOne_of_unmatched n (matchesOf_eq_nil_of_not_matched hm),
            food_item_total_unmatchedRow, zero_add]
      | true =>
          rw [List.filter_cons_of_pos hm, leftMerge_cons, food_item_total_append]

/-- C1: for every consumption record matched to a nutrition entry, the
merged output contains a row carrying the record's identity whose
per-nutrient contribution column equals quantity_grams / 100 times the
per-100g nutrient value, with no rounding. -/
theorem c1_per_record_scaling :
    ∀ (n : Nat) (cons : List ConsRow) (mp : List MapRow) (c : ConsRow) (m : MapRow),
      c ∈ cons → m ∈ mp → normCode m.code = normCode c.code →
      ∃ r ∈ leftMerge n cons (mp.map loadMapRow),
        r.household = c.household ∧ r.person = c.person ∧ r.grams = gramsOf c ∧
        contributions r = (loadMapRow m).nutrients.map
          (fun v => some (gramsOf c / 100 * v)) := by
  intro n cons mp c m hc hm hcode
  have hm1 : loadMapRow m ∈ matchesOf (mp.map loadMapRow) c := by
    rw [matchesOf, List.mem_filter]
    exact ⟨List.mem_map_of_mem loadMapRow hm, by simpa [loadMapRow] using hcode⟩
  refine ⟨matchedRow c (loadMapRow m), ?_, rfl, rfl, rfl, ?_⟩
  · refine List.mem_flatMap.2 ⟨c, hc, ?_⟩
    rw [mergeOne_of_matched n (List.ne_nil_of_mem hm1)]
    exact List.mem_map_of_mem (matchedRow c) hm1
  · simp [contributions, matchedRow, List.map_map, Function.comp]

/-- Witness for C1: in the example scenario, the record (household 1,
person 1, food 101, 150 g) produces a merged row whose energy contribution
is 150 / 100 × 100. -/
theorem c1_per_record_scaling_witness :
    ∃ r ∈ leftMerge 1 exCons (exMap.map loadMapRow),
      r.household = "1" ∧ r.person = "1" ∧
      r.grams = gramsOf ⟨"1", "1", .intC 101, .numC 150⟩ ∧
      contributions r =
        (loadMapRow ⟨.intC 101, some "rice", some "Rice", [.numC 100]⟩).nutrients.map
          (fun v => some (gramsOf ⟨"1", "1", .intC 101, .numC 150⟩ / 100 * v)) :=
  c1_per_record_scaling 1 exCons exMap ⟨"1", "1", .intC 101, .numC 150⟩
    ⟨.intC 101, some "rice", some "Rice", [.numC 100]⟩
    (by simp [exCons]) (by simp [exMap]) rfl

/-- C2: an unmatched consumption record contributes no value to any group's
nutrient total — every group total is unchanged when unmatched records are
removed from the input, and a group consisting entirely of unmatched
records totals zero — and its food code appears in the unmatched-codes
report exactly once no matter how many records carry it. -/
theorem c2_unmatched_rows_excluded :
    ∀ (n : Nat) (cons : List ConsRow) (mp : List LoadedMapRow),
      (∀ c ∈ cons, isMatched mp c = false →
        (unmatchedReport (leftMerge n cons mp)).count (normCode c.code) = 1) ∧
      (∀ (hh p : String) (j : Nat),
        nutrition_total (leftMerge n cons mp) hh p j =
          nutrition_total (leftMerge n (cons.filter (isMatched mp)) mp) hh p j) ∧
      (∀ (hh p : String) (j : Nat),
        (∀ c ∈ cons, c.household = hh → c.person = p → isMatched mp c = false) →
        nutrition_total (leftMerge n cons mp) hh p j = 0) := by
  intro n cons mp
  refine ⟨?_, ?_, ?_⟩
  · intro c hc hum
    have hnil := matchesOf_eq_nil_of_not_matched hum
    have hmem : unmatchedRow n c ∈ leftMerge n cons mp := by
      refine List.mem_flatMap.2 ⟨c, hc, ?_⟩
      rw [mergeOne_of_unmatched n hnil]
      exact List.mem_singleton.2 rfl
    refine count_firstDedup_of_mem ?_
    exact List.mem_map.2 ⟨unmatchedRow n c,
      List.mem_filter.2 ⟨hmem, allNaN_unmatchedRow n c⟩, rfl⟩
  · intro hh p j
    induction cons with
    | nil => rfl
    | cons c l ih =>
        rw [leftMerge_cons, nutrition_total_append, ih]
        cases hm : isMatched mp c with
        | false =>
            rw [List.filter_cons_of_neg (by simp [hm]),
              nutrition_total_mergeOne_unmatched n
                (matchesOf_eq_nil_of_not_matched hm), zero_add]
        | true =>
            rw [List.filter_cons_of_pos hm, leftMerge_cons, nutrition_total_append]
  · intro hh p j hall
    induction cons with
    | nil => rfl
    | cons c l ih =>
        rw [leftMerge_cons, nutrition_total_append]
        rw [ih (fun c1 hc1 => hall c1 (List.mem_cons_of_mem c hc1)), add_zero]
        by_cases hg : c.household = hh ∧ c.person = p
        · exact nutrition_total_mergeOne_unmatched n
            (matchesOf_eq_nil_of_not_matched
              (hall c (List.mem_cons_self c l) hg.1 hg.2)) hh p j
        · exact nutrition_total_mergeOne_other_group n mp j hg

/-- Witness for C2: in the example scenario extended with two records of
the unmatched code 999, the report lists 999 exactly once. -/
theorem c2_unmatched_rows_excluded_witness :
    (unmatchedReport (leftMerge 1 exConsU (exMap.map loadMapRow))).count "999" = 1 := by
  have h := (c2_unmatched_rows_excluded 1 exConsU (exMap.map loadMapRow)).1 row999
    (by simp [exConsU, row999])
    (by simp [isMatched, matchesOf, exMap, loadMapRow, row999,
      normCode_101, normCode_102, normCode_999])
  simpa [row999, normCode_999] using h

/-- With pairwise-distinct normalized mapping codes, at most one mapping
row matches any consumption row. -/
theorem matchesOf_length_le_one (c : ConsRow) :
    ∀ mp : List LoadedMapRow, (mp.map (fun m => normCode m.code)).Nodup →
      (matchesOf mp c).length ≤ 1 := by
  intro mp
  induction mp with
  | nil => intro _; simp [matchesOf]
  | cons m l ih =>
      intro hnd
      rw [List.map_cons, List.nodup_cons] at hnd
      obtain ⟨hnm, hnd1⟩ := hnd
      rw [matchesOf, List.filter_cons]
      by_cases hb : (normCode m.code == normCode c.code) = true
      · have heq : normCode m.code = normCode c.code := by simpa using hb
        have htail : l.filter (fun m1 => normCode m1.code == normCode c.code) = [] := by
          rw [List.filter_eq_nil_iff]
          intro m1 hm1
          simp only [beq_iff_eq]
          intro he
          exact hnm (List.mem_map.2 ⟨m1, hm1, he.trans heq.symm⟩)
        rw [hb]
        simp only [if_true]
        rw [show l.filter (fun m1 => normCode m1.code == normCode c.code) = []
          from htail]
        simp
      · rw [if_neg hb]
        exact ih hnd1

theorem length_mergeOne_of_nodup {mp : List LoadedMapRow}
    (hnd : (mp.map (fun m => normCode m.code)).Nodup) (n : Nat) (c : ConsRow) :
    (mergeOne n mp c).length = 1 := by
  unfold mergeOne
  cases hm : matchesOf mp c with
  | nil => rfl
  | cons a t =>
      have hle := matchesOf_length_le_one c mp hnd
      rw [hm] at hle
      simp only [List.length_cons] at hle
      simp only [List.length_map, List.length_cons]
      omega

/-- Counterexample to C3: with a duplicated food code in the nutrition
table, the single consumption record appears twice in the joined output —
once per duplicate occurrence, not matched only to the first. -/
theorem c3_counterexample :
    oneCons.length = 1 ∧
      (leftMerge 1 oneCons (dupMap.map loadMapRow)).length = 2 ∧
      (leftMerge 1 oneCons (dupMap.map loadMapRow)).map (fun r => r.food_name) =
        [some "a", some "b"] := by
  refine ⟨rfl, ?_, ?_⟩ <;>
    simp [oneCons, dupMap, leftMerge, mergeOne, matchesOf, matchedRow, loadMapRow,
      normCode_101]

/-- C3 as amended: the join is left outer-preserving — every consumption
record yields at least one output row — and when the nutrition table's
normalized food codes are unique, every record appears exactly once,
joined to at most one entry; with duplicated codes the record is
replicated once per matching entry. -/
theorem c3_amended :
    (∀ (n : Nat) (cons : List ConsRow) (mp : List LoadedMapRow),
      cons.length ≤ (leftMerge n cons mp).length) ∧
      (∀ (n : Nat) (cons : List ConsRow) (mp : List LoadedMapRow),
        (mp.map (fun m => normCode m.code)).Nodup →
        (leftMerge n cons mp).length = cons.length ∧
          ∀ c : ConsRow, (matchesOf mp c).length ≤ 1) := by
  constructor
  · intro n cons mp
    induction cons with
    | nil => simp [leftMerge_nil]
    | cons c l ih =>
        rw [leftMerge_cons, List.length_append, List.length_cons]
        have h1 := one_le_length_mergeOne n mp c
        omega
  · intro n cons mp hnd
    refine ⟨?_, fun c => matchesOf_length_le_one c mp hnd⟩
    induction cons with
    | nil => rfl
    | cons c l ih =>
        rw [leftMerge_cons, List.length_append, List.length_cons, ih,
          length_mergeOne_of_nodup hnd]
        omega

/-- Witness for C3 (amended): the example nutrition table has unique
codes, so the example join output has exactly one row per record. -/
theorem c3_amended_witness :
    (leftMerge 1 exCons (exMap.map loadMapRow)).length = exCons.length ∧
      ∀ c : ConsRow, (matchesOf (exMap.map loadMapRow) c).length ≤ 1 :=
  c3_amended.2 1 exCons (exMap.map loadMapRow)
    (by simp [exMap, loadMapRow, normCode_101, normCode_102])

/-- C10: a merged row has all nutrient values missing exactly when its
trimmed food code is absent from the nutrition table — a matched record is
never reported unmatched, even when every nutrient cell of its food was
non-numeric at load time: such cells are coerced to 0, and all-zero
nutrient rows contribute exactly 0 to every nutrient column. -/
theorem c10_unmatched_iff_code_absent :
    ∀ (n : Nat) (cons : List ConsRow) (mp : List MapRow),
      (∀ m ∈ mp, m.nutrients.length = n) → 1 ≤ n →
      ((∀ r ∈ leftMerge n cons (mp.map loadMapRow),
          (allNaN r = true ↔ ∀ m ∈ mp, normCode m.code ≠ r.codeNorm)) ∧
        (∀ m : MapRow,
          (∀ cell ∈ m.nutrients, ∃ s, cell = Cell.strC s ∧ parseNum s = none) →
          (loadMapRow m).nutrients = List.replicate m.nutrients.length 0) ∧
        (∀ r : MergedRow, (∀ o ∈ r.nutrients, o = some 0) →
          ∀ x ∈ contributions r, x = some 0)) := by
  intro n cons mp hlen hn
  refine ⟨?_, ?_, ?_⟩
  · intro r hr
    obtain ⟨c, hc, hrc⟩ := List.mem_flatMap.1 hr
    unfold mergeOne at hrc
    cases hmm : matchesOf (mp.map loadMapRow) c with
    | nil =>
        rw [hmm] at hrc
        rw [List.mem_singleton] at hrc
        subst hrc
        refine ⟨fun _ m hm heq => ?_, fun _ => allNaN_unmatchedRow n c⟩
        have : loadMapRow m ∈ matchesOf (mp.map loadMapRow) c := by
          rw [matchesOf, List.mem_filter]
          exact ⟨List.mem_map_of_mem loadMapRow hm, by
            simpa [loadMapRow, unmatchedRow] using heq⟩
        rw [hmm] at this
        exact absurd this (List.not_mem_nil _)
    | cons a t =>
        rw [hmm] at hrc
        obtain ⟨m1, hm1, hrm⟩ := List.mem_map.1 hrc
        rw [← hmm] at hm1
        rw [matchesOf, List.mem_filter] at hm1
        obtain ⟨hm1mem, hm1code⟩ := hm1
        obtain ⟨m0, hm0, hm0e⟩ := List.mem_map.1 hm1mem
        have hlen1 : m1.nutrients.length = n := by
          rw [← hm0e]
          simpa [loadMapRow] using hlen m0 hm0
        have h1 : allNaN r = false := by
          subst hrm
          rw [allNaN, matchedRow]
          cases hnl : m1.nutrients with
          | nil =>
              rw [hnl] at hlen1
              simp only [List.length_nil] at hlen1
              omega
          | cons q qs => simp [hnl]
        have h2 : ¬ (∀ m ∈ mp, normCode m.code ≠ r.codeNorm) := by
          push_neg
          refine ⟨m0, hm0, ?_⟩
          have hcode0 : m0.code = m1.code := by rw [← hm0e]; rfl
          subst hrm
          rw [matchedRow, hcode0]
          simpa using hm1code
        exact iff_of_false (by simp [h1]) h2
  · intro m hcells
    rw [loadMapRow]
    refine List.eq_replicate_iff.2 ⟨by simp, ?_⟩
    intro b hb
    obtain ⟨cell, hcell, hbc⟩ := List.mem_map.1 hb
    obtain ⟨s, hcs, hps⟩ := hcells cell hcell
    rw [← hbc, hcs]
    simp [coerceNutrient, hps]
  · intro r hzero x hx
    obtain ⟨o, ho, hxo⟩ := List.mem_map.1 hx
    rw [← hxo, hzero o ho]
    simp

/-- Witness for C10: in the extended example, the merged row of the
unmatched code 999 has all nutrient values missing, and indeed no mapping
code equals "999". -/
theorem c10_unmatched_iff_code_absent_witness :
    allNaN (unmatchedRow 1 row999) = true ↔
      ∀ m ∈ exMap, normCode m.code ≠ (unmatchedRow 1 row999).codeNorm := by
  refine (c10_unmatched_iff_code_absent 1 exConsU exMap (by simp [exMap])
    (by norm_num)).1 (unmatchedRow 1 row999) ?_
  refine List.mem_flatMap.2 ⟨row999, by simp [exConsU, row999], ?_⟩
  rw [mergeOne_of_unmatched 1 (matchesOf_eq_nil_of_not_matched (by
    simp [isMatched, matchesOf, exMap, loadMapRow, row999,
      normCode_101, normCode_102, normCode_999]))]
  exact List.mem_singleton.2 rfl

end FoodApp
